import Mathlib

/-!
Verification of the emotion-score normalization and aggregation layer of the
emotisecure-login application.

The definitions below are a shallow embedding of `src/src/hooks/useTextEmotionModel.ts`
and `src/src/hooks/useImageEmotionModel.ts`.  Both hooks run the identical algorithm
and differ only in their `EMOTION_MAP` lookup table, so the algorithm is embedded once,
parameterized by the lookup, and instantiated twice (`analyzeText`, `analyzeImage`).

Scores are modelled as rationals (`ℚ`); JavaScript's `Array.prototype.sort` (a stable
sort, guaranteed by ES2019) is modelled by `List.insertionSort`, which is stable with
the same comparator semantics, so the two agree extensionally on every input.
-/

namespace EmotiSecure

/-- The canonical emotion categories, in the order of the `allEmotions` array literal
`["Happy", "Sad", "Angry", "Surprised", "Disgusted", "Neutral"]` in the source. -/
inductive EmotionCategory
  | Happy
  | Sad
  | Angry
  | Surprised
  | Disgusted
  | Neutral
deriving DecidableEq

/-- The `allEmotions` array literal from `analyzeText` / `analyzeImage`. -/
def allEmotions : List EmotionCategory :=
  [.Happy, .Sad, .Angry, .Surprised, .Disgusted, .Neutral]

/-- Display name of each category, the string stored in `EmotionResult.name`. -/
def categoryName : EmotionCategory → String
  | .Happy => "Happy"
  | .Sad => "Sad"
  | .Angry => "Angry"
  | .Surprised => "Surprised"
  | .Disgusted => "Disgusted"
  | .Neutral => "Neutral"

/-- `EMOTION_MAP` of `useTextEmotionModel.ts` (DistilRoBERTa label vocabulary),
applied to the lowercased raw label. -/
def textLookup (label : String) : Option EmotionCategory :=
  if label = "joy" then some .Happy
  else if label = "sadness" then some .Sad
  else if label = "anger" then some .Angry
  else if label = "surprise" then some .Surprised
  else if label = "disgust" then some .Disgusted
  else if label = "neutral" then some .Neutral
  else none

/-- `EMOTION_MAP` of `useImageEmotionModel.ts` (ViT face-expression vocabulary),
applied to the lowercased raw label. -/
def imageLookup (label : String) : Option EmotionCategory :=
  if label = "happy" then some .Happy
  else if label = "sad" then some .Sad
  else if label = "angry" then some .Angry
  else if label = "surprise" then some .Surprised
  else if label = "disgust" then some .Disgusted
  else if label = "neutral" then some .Neutral
  else none

/-- Intensity buckets of `EmotionResult.intensity`. -/
inductive Intensity
  | low
  | medium
  | high
deriving DecidableEq

/-- `getIntensity` from both hooks:
`if (score >= 0.67) return "high"; if (score >= 0.34) return "medium"; return "low";` -/
def getIntensity (score : ℚ) : Intensity :=
  if 67 / 100 ≤ score then .high
  else if 34 / 100 ≤ score then .medium
  else .low

/-- Model of `label.toLowerCase()`: lowercase every character.  (`String.toLower`
computes the same string but is defined by well-founded recursion, which blocks
kernel evaluation, so the character-list form is used instead.) -/
def lowerString (s : String) : String :=
  String.mk (s.data.map Char.toLower)

/-- A raw classification: the backend's list of `{label, score}` pairs. -/
abbrev RawClassification := List (String × ℚ)

/-- An emotion vector: the `emotionScores` record, one score per canonical category. -/
abbrev EmotionVector := EmotionCategory → ℚ

/-- The body of the `results.forEach` loop: a raw pair whose lowercased label has a
lookup entry overwrites that category's score (`emotionScores[mappedEmotion] = r.score`);
an unmapped pair leaves the scores untouched. -/
def updStep (lookup : String → Option EmotionCategory)
    (scores : EmotionVector) (r : String × ℚ) : EmotionVector :=
  match lookup (lowerString r.1) with
  | some c => Function.update scores c r.2
  | none => scores

/-- The label-mapping loop of `analyzeText` / `analyzeImage`: starting from the
all-zero `emotionScores`, fold the loop body over the raw pairs in order. -/
def applyResults (lookup : String → Option EmotionCategory)
    (results : RawClassification) : EmotionVector :=
  results.foldl (updStep lookup) (fun _ => 0)

/-- `totalScore`: the sum of all six category scores. -/
def totalScore (v : EmotionVector) : ℚ :=
  (allEmotions.map v).sum

/-- The renormalization step: divide every category by `totalScore` when it is
positive, otherwise leave the vector unchanged. -/
def normalizeVector (v : EmotionVector) : EmotionVector :=
  if 0 < totalScore v then fun c => v c / totalScore v else v

/-- The full normalization pipeline: map raw labels onto categories, then rescale. -/
def normalize (lookup : String → Option EmotionCategory)
    (results : RawClassification) : EmotionVector :=
  normalizeVector (applyResults lookup results)

/-- The `EmotionResult` display record `{name, score, intensity}`. -/
structure EmotionResult where
  name : String
  score : ℚ
  intensity : Intensity
deriving DecidableEq

/-- The `EmotionResult` entry built for category `c` from vector `v`. -/
def entryOf (v : EmotionVector) (c : EmotionCategory) : EmotionResult :=
  ⟨categoryName c, v c, getIntensity (v c)⟩

/-- The unsorted `emotions` array: one entry per canonical category, in order. -/
def buildEmotions (v : EmotionVector) : List EmotionResult :=
  allEmotions.map (entryOf v)

/-- The comparator's order relation: `(a, b) => b.score - a.score` sorts so that a
pair `(a, b)` is in order exactly when `b.score ≤ a.score` (descending). -/
def scoreDescRel (a b : EmotionResult) : Prop :=
  b.score ≤ a.score

instance : DecidableRel scoreDescRel :=
  fun a b => (inferInstance : Decidable (b.score ≤ a.score))

instance : IsTotal EmotionResult scoreDescRel :=
  ⟨fun a b => le_total b.score a.score⟩

instance : IsTrans EmotionResult scoreDescRel :=
  ⟨fun _ _ _ hab hbc => le_trans hbc hab⟩

/-- `emotions.sort((a, b) => b.score - a.score)`: a stable sort by descending score.
`List.insertionSort` is stable and therefore produces the same list as JavaScript's
stable `Array.prototype.sort` with this comparator. -/
def sortEmotions (l : List EmotionResult) : List EmotionResult :=
  l.insertionSort scoreDescRel

/-- The aggregated result `EmotionData` (`analysis_summary`, a display string derived
from the fields below, is omitted). -/
structure EmotionData where
  emotions : List EmotionResult
  dominant_emotion : String
  mixed_emotions : List String
  confidence : ℚ
deriving DecidableEq

/-- The aggregation step of `analyzeText` / `analyzeImage`: sort, pick the dominant
emotion (`emotions[0]?.name || "Neutral"`), filter the mixed emotions
(`score > 0.15`), and read off the confidence (`emotions[0]?.score || 0`). -/
def aggregate (v : EmotionVector) : EmotionData :=
  let emotions := sortEmotions (buildEmotions v)
  { emotions := emotions
    dominant_emotion := ((emotions.head?).map EmotionResult.name).getD ("Neutral")
    mixed_emotions :=
      (emotions.filter (fun e => decide ((3 : ℚ) / 20 < e.score))).map EmotionResult.name
    confidence := ((emotions.head?).map EmotionResult.score).getD 0 }

/-- `analyzeText`'s pure core: normalization followed by aggregation, with the
text-model lookup table. -/
def analyzeText (results : RawClassification) : EmotionData :=
  aggregate (normalize textLookup results)

/-- `analyzeImage`'s pure core: normalization followed by aggregation, with the
image-model lookup table. -/
def analyzeImage (results : RawClassification) : EmotionData :=
  aggregate (normalize imageLookup results)

/-- Specification-side reading of last-write-wins: the score a category receives is
the score of the last raw pair (in input order) whose label maps to it, i.e. the
first matching pair of the reversed input, and `0` when no pair maps to it. -/
def lastWriteScore (lookup : String → Option EmotionCategory)
    (results : RawClassification) (c : EmotionCategory) : ℚ :=
  (((results.reverse.find? fun r => decide (lookup (lowerString r.1) = some c)).map
    Prod.snd).getD 0)

/-- The raw text-model label that `textLookup` maps to each category. -/
def textRawLabel : EmotionCategory → String
  | .Happy => "joy"
  | .Sad => "sadness"
  | .Angry => "anger"
  | .Surprised => "surprise"
  | .Disgusted => "disgust"
  | .Neutral => "neutral"

/-- The raw image-model label that `imageLookup` maps to each category. -/
def imageRawLabel : EmotionCategory → String
  | .Happy => "happy"
  | .Sad => "sad"
  | .Angry => "angry"
  | .Surprised => "surprise"
  | .Disgusted => "disgust"
  | .Neutral => "neutral"

/-- A normalized vector with all mass on `Happy`. -/
def unitHappy : EmotionVector :=
  fun c => if c = .Happy then 1 else 0

/-- A normalized vector with all mass on `Surprised`. -/
def unitSurprised : EmotionVector :=
  fun c => if c = .Surprised then 1 else 0

/-- A vector with equal positive mass on `Happy` and `Angry` (the spec's sort-tie
example) and zero elsewhere. -/
def tiedHappyAngry : EmotionVector :=
  fun c => if c = .Happy then 1 else if c = .Angry then 1 else 0

/-!
Model of `loadModel`'s asynchronous control flow.  The function body is

```
if (classifierRef.current) { setModelReady(true); return; }
... const classifier = await pipeline(...); classifierRef.current = classifier; ...
```

Between the `classifierRef.current` check and the assignment the function suspends at
`await pipeline(...)`, so a second concurrent call can run its check while the first
load is still in flight.  The model keeps the shared handle, which caller has a load
in flight, and how many loads were ever started; each atomic step is one of the two
event-loop turns of a call (the synchronous prefix up to the `await`, and the
continuation after it).
-/

/-- One atomic scheduler step of a concurrent pair of `loadModel` calls:
`checkA`/`checkB` run a caller's synchronous prefix (the `classifierRef.current`
check, and on `null` the start of `pipeline(...)`); `finishA`/`finishB` run the
continuation after the `await` (the assignment to `classifierRef.current`). -/
inductive LoadEvent
  | checkA
  | checkB
  | finishA
  | finishB
deriving DecidableEq

/-- Shared state of the two concurrent `loadModel` calls. -/
structure LoadState where
  handleSet : Bool
  aLoading : Bool
  bLoading : Bool
  loads : Nat
deriving DecidableEq

/-- The transition function of the `loadModel` model. -/
def loadStep (s : LoadState) : LoadEvent → LoadState
  | .checkA => if s.handleSet then s else { s with aLoading := true, loads := s.loads + 1 }
  | .checkB => if s.handleSet then s else { s with bLoading := true, loads := s.loads + 1 }
  | .finishA => if s.aLoading then { s with handleSet := true, aLoading := false } else s
  | .finishB => if s.bLoading then { s with handleSet := true, bLoading := false } else s

/-- Run a schedule of steps from a state. -/
def runLoad (events : List LoadEvent) (s : LoadState) : LoadState :=
  events.foldl loadStep s

/-- The initial state: no handle, no load in flight, no load ever started. -/
def initLoadState : LoadState :=
  ⟨false, false, false, 0⟩

/-! Helper lemmas shared by the claim theorems. -/

lemma mem_allEmotions (c : EmotionCategory) : c ∈ allEmotions := by
  cases c <;> simp [allEmotions]

lemma allEmotions_nodup : allEmotions.Nodup := by decide

lemma categoryName_inj {c₁ c₂ : EmotionCategory} (h : categoryName c₁ = categoryName c₂) :
    c₁ = c₂ := by
  cases c₁ <;> cases c₂ <;> simp [categoryName] at h ⊢

lemma totalScore_eq (v : EmotionVector) :
    totalScore v = v .Happy + v .Sad + v .Angry + v .Surprised + v .Disgusted + v .Neutral := by
  simp [totalScore, allEmotions]
  ring

lemma normalizeVector_pos {v : EmotionVector} (h : 0 < totalScore v) :
    normalizeVector v = fun c => v c / totalScore v := by
  simp [normalizeVector, h]

lemma normalizeVector_nonpos {v : EmotionVector} (h : ¬0 < totalScore v) :
    normalizeVector v = v := by
  simp [normalizeVector, h]

lemma totalScore_normalizeVector {v : EmotionVector} (h : 0 < totalScore v) :
    totalScore (normalizeVector v) = 1 := by
  rw [normalizeVector_pos h, totalScore_eq]
  rw [div_add_div_same, div_add_div_same, div_add_div_same, div_add_div_same,
    div_add_div_same, ← totalScore_eq]
  exact div_self h.ne'

lemma foldl_updStep_nonneg (lookup : String → Option EmotionCategory) :
    ∀ (results : RawClassification) (init : EmotionVector),
      (∀ c, 0 ≤ init c) → (∀ r ∈ results, 0 ≤ r.2) →
      ∀ c, 0 ≤ results.foldl (updStep lookup) init c := by
  intro results
  induction results with
  | nil => intro init hinit _ c; exact hinit c
  | cons r rs ih =>
    intro init hinit hr c
    rw [List.foldl_cons]
    refine ih (updStep lookup init r) ?_ (fun p hp => hr p (List.mem_cons_of_mem r hp)) c
    intro c'
    simp only [updStep]
    cases hlk : lookup (lowerString r.1) with
    | none => exact hinit c'
    | some c'' =>
      show 0 ≤ Function.update init c'' r.2 c'
      by_cases hc : c' = c''
      · subst hc; rw [Function.update_same]; exact hr r (List.mem_cons_self r rs)
      · rw [Function.update_noteq hc]; exact hinit c'

lemma applyResults_nonneg (lookup : String → Option EmotionCategory)
    (results : RawClassification) (hr : ∀ r ∈ results, 0 ≤ r.2) (c : EmotionCategory) :
    0 ≤ applyResults lookup results c :=
  foldl_updStep_nonneg lookup results (fun _ => 0) (fun _ => le_refl 0) hr c

lemma foldl_updStep_lastWrite (lookup : String → Option EmotionCategory) :
    ∀ (results : RawClassification) (init : EmotionVector) (c : EmotionCategory),
      results.foldl (updStep lookup) init c =
        (((results.reverse.find? fun r => decide (lookup (lowerString r.1) = some c)).map
          Prod.snd).getD (init c)) := by
  intro results
  induction results using List.reverseRecOn with
  | nil => intro init c; rfl
  | append_singleton l x ih =>
    intro init c
    rw [List.foldl_append, List.foldl_cons, List.foldl_nil, List.reverse_append]
    simp only [List.reverse_cons, List.reverse_nil, List.nil_append, List.singleton_append,
      List.find?_cons]
    unfold updStep
    cases hlk : lookup (lowerString x.1) with
    | none =>
      simp only [hlk]
      have : (decide ((none : Option EmotionCategory) = some c)) = false := by simp
      rw [this]
      exact ih init c
    | some c' =>
      simp only [hlk]
      by_cases hc : c' = c
      · subst hc
        have : (decide (some c' = some c')) = true := by simp
        rw [this, Function.update_same]
        rfl
      · have hd : (decide (some c' = some c)) = false := by simp [hc]
        rw [hd, Function.update_noteq (fun h => hc h.symm)]
        exact ih init c

lemma foldl_updStep_filter_mapped (lookup : String → Option EmotionCategory) :
    ∀ (results : RawClassification) (init : EmotionVector),
      (results.filter fun r => (lookup (lowerString r.1)).isSome).foldl
          (updStep lookup) init =
        results.foldl (updStep lookup) init := by
  intro results
  induction results with
  | nil => intro init; rfl
  | cons r rs ih =>
    intro init
    cases hlk : lookup (lowerString r.1) with
    | none =>
      rw [List.filter_cons_of_neg (by simp [hlk]), List.foldl_cons]
      have hstep : updStep lookup init r = init := by unfold updStep; rw [hlk]
      rw [hstep]
      exact ih init
    | some c =>
      rw [List.filter_cons_of_pos (by simp [hlk]), List.foldl_cons, List.foldl_cons]
      exact ih (updStep lookup init r)

lemma applyResults_unmapped (lookup : String → Option EmotionCategory)
    (results : RawClassification)
    (h : ∀ r ∈ results, lookup (lowerString r.1) = none) :
    applyResults lookup results = fun _ => 0 := by
  unfold applyResults
  rw [← foldl_updStep_filter_mapped]
  have hnil : (results.filter fun r => (lookup (lowerString r.1)).isSome) = [] := by
    rw [List.filter_eq_nil_iff]
    intro r hr
    simp [h r hr]
  rw [hnil]
  rfl

lemma sortEmotions_perm (l : List EmotionResult) : List.Perm (sortEmotions l) l :=
  List.perm_insertionSort _ _

lemma sortEmotions_sorted (l : List EmotionResult) :
    (sortEmotions l).Pairwise scoreDescRel :=
  List.sorted_insertionSort _ _

lemma length_sortEmotions_buildEmotions (v : EmotionVector) :
    (sortEmotions (buildEmotions v)).length = 6 := by
  rw [List.Perm.length_eq (sortEmotions_perm _)]
  simp [buildEmotions, allEmotions]

lemma mem_buildEmotions {v : EmotionVector} {e : EmotionResult} :
    e ∈ buildEmotions v ↔ ∃ c, e = entryOf v c := by
  constructor
  · intro h
    rcases List.mem_map.1 h with ⟨c, _, rfl⟩
    exact ⟨c, rfl⟩
  · rintro ⟨c, rfl⟩
    exact List.mem_map.2 ⟨c, mem_allEmotions c, rfl⟩

lemma sum_scores_buildEmotions (v : EmotionVector) :
    ((buildEmotions v).map EmotionResult.score).sum = totalScore v := rfl

lemma aggregate_emotions (v : EmotionVector) :
    (aggregate v).emotions = sortEmotions (buildEmotions v) := rfl

lemma aggregate_dominant (v : EmotionVector) :
    (aggregate v).dominant_emotion =
      (((sortEmotions (buildEmotions v)).head?).map EmotionResult.name).getD ("Neutral") := rfl

lemma aggregate_mixed (v : EmotionVector) :
    (aggregate v).mixed_emotions =
      ((sortEmotions (buildEmotions v)).filter
        (fun e => decide ((3 : ℚ) / 20 < e.score))).map EmotionResult.name := rfl

lemma aggregate_confidence (v : EmotionVector) :
    (aggregate v).confidence =
      (((sortEmotions (buildEmotions v)).head?).map EmotionResult.score).getD 0 := rfl

lemma tl_joy : textLookup (lowerString ("joy")) = some EmotionCategory.Happy := by decide

lemma tl_anger : textLookup (lowerString ("anger")) = some EmotionCategory.Angry := by decide

lemma tl_neutral : textLookup (lowerString ("neutral")) = some EmotionCategory.Neutral := by
  decide

lemma tl_fear : textLookup (lowerString ("fear")) = none := by decide

lemma tl_textRawLabel (c : EmotionCategory) :
    textLookup (lowerString (textRawLabel c)) = some c := by
  cases c <;> decide

lemma il_imageRawLabel (c : EmotionCategory) :
    imageLookup (lowerString (imageRawLabel c)) = some c := by
  cases c <;> decide

lemma tl_categoryName (c : EmotionCategory) :
    textLookup (lowerString (categoryName c)) =
      if c = EmotionCategory.Neutral then some EmotionCategory.Neutral else none := by
  cases c <;> decide

lemma il_categoryName (c : EmotionCategory) :
    imageLookup (lowerString (categoryName c)) =
      if c = EmotionCategory.Surprised ∨ c = EmotionCategory.Disgusted then none
      else some c := by
  cases c <;> decide

/-!
Claim theorems.
-/

/-- Claim C3 (confirmed): the intensity bucketing function returns `low` for scores
below 0.34, `medium` for scores in [0.34, 0.67), and `high` for scores at or above
0.67; in particular 0.33999 maps to `low`, 0.34 to `medium`, 0.66999 to `medium`,
and 0.67 to `high`. -/
theorem intensity_bucketing :
    getIntensity ((33999 : ℚ) / 100000) = Intensity.low ∧
    getIntensity ((34 : ℚ) / 100) = Intensity.medium ∧
    getIntensity ((66999 : ℚ) / 100000) = Intensity.medium ∧
    getIntensity ((67 : ℚ) / 100) = Intensity.high ∧
    ∀ s : ℚ,
      (getIntensity s = Intensity.low ↔ s < 34 / 100) ∧
      (getIntensity s = Intensity.medium ↔ 34 / 100 ≤ s ∧ s < 67 / 100) ∧
      (getIntensity s = Intensity.high ↔ 67 / 100 ≤ s) := by
  refine ⟨by norm_num [getIntensity], by norm_num [getIntensity], by norm_num [getIntensity],
    by norm_num [getIntensity], fun s => ?_⟩
  unfold getIntensity
  split_ifs with h1 h2
  · exact ⟨iff_of_false (by simp) (by linarith),
      iff_of_false (by simp) (by rintro ⟨-, h3⟩; linarith), iff_of_true rfl h1⟩
  · exact ⟨iff_of_false (by simp) (by linarith), iff_of_true rfl ⟨h2, by linarith⟩,
      iff_of_false (by simp) h1⟩
  · exact ⟨iff_of_true rfl (by linarith),
      iff_of_false (by simp) (by rintro ⟨h3, -⟩; linarith), iff_of_false (by simp) h1⟩

/-- Claim C7 (confirmed): when several raw pairs map to the same category, the
category's score is the score of the last such pair in input order — the score each
category receives equals `lastWriteScore`, the score of the final matching pair
(0 when none matches). -/
theorem last_write_wins (lookup : String → Option EmotionCategory)
    (results : RawClassification) (c : EmotionCategory) :
    applyResults lookup results c = lastWriteScore lookup results c :=
  foldl_updStep_lastWrite lookup results (fun _ => 0) c

/-- Claim C8 (confirmed): pairs whose lowercased label has no lookup entry are
discarded silently — removing them does not change any category score, so they
contribute nothing, and the (total) normalizer never fails on them. -/
theorem unmapped_labels_discarded (lookup : String → Option EmotionCategory)
    (results : RawClassification) (c : EmotionCategory) :
    applyResults lookup (results.filter fun r => (lookup (lowerString r.1)).isSome) c =
      applyResults lookup results c :=
  congrFun (foldl_updStep_filter_mapped lookup results (fun _ => 0)) c

/-- Claim C9 (code bug): in the interleaving where both concurrent `loadModel` calls
run the `classifierRef.current` check before either load's continuation stores the
handle, the code starts two pipeline loads, contradicting the claim that at most one
model-loading operation is started. -/
theorem load_model_duplicate_load :
    (runLoad [.checkA, .checkB, .finishA, .finishB] initLoadState).loads = 2 ∧
    (runLoad [.checkA, .checkB, .finishA, .finishB] initLoadState).handleSet = true := by
  decide

/-- Claim C2 (confirmed): when the mapped category scores (classifier scores, hence
nonnegative) have a positive total, the normalized vector's six scores sum to exactly
1; when the total is 0, every category score is 0. -/
theorem renormalization_invariant (lookup : String → Option EmotionCategory)
    (results : RawClassification) :
    (0 < totalScore (applyResults lookup results) →
      totalScore (normalize lookup results) = 1) ∧
    ((∀ r ∈ results, 0 ≤ r.2) → totalScore (applyResults lookup results) = 0 →
      ∀ c, normalize lookup results c = 0) := by
  constructor
  · intro h
    exact totalScore_normalizeVector h
  · intro hr h0 c
    have hnn := applyResults_nonneg lookup results hr
    have hsum := totalScore_eq (applyResults lookup results)
    rw [h0] at hsum
    have hz : ∀ c', applyResults lookup results c' = 0 := by
      have hH := hnn .Happy
      have hS := hnn .Sad
      have hA := hnn .Angry
      have hSu := hnn .Surprised
      have hD := hnn .Disgusted
      have hN := hnn .Neutral
      intro c'
      cases c' <;> linarith
    rw [normalize, normalizeVector_nonpos (by rw [h0]; exact lt_irrefl 0)]
    exact hz c

/-- Witness for C2 at concrete inputs: `[joy ↦ 4, anger ↦ 1]` has positive total and
normalizes to unit sum; `[fear ↦ 1]` is all-unmapped, so every score is 0. -/
theorem renormalization_invariant_witness :
    totalScore (normalize textLookup [(("joy" : String), (4 : ℚ)), ("anger", 1)]) = 1 ∧
    normalize textLookup [(("fear" : String), (1 : ℚ))] .Happy = 0 := by
  constructor
  · refine (renormalization_invariant textLookup _).1 ?_
    simp +decide only [totalScore, allEmotions, applyResults, updStep, List.foldl_cons,
      List.foldl_nil, tl_joy, tl_anger, Function.update, List.map_cons, List.map_nil,
      List.sum_cons, List.sum_nil]
    norm_num
  · refine (renormalization_invariant textLookup _).2 ?_ ?_ .Happy
    · intro r hr
      simp only [List.mem_singleton] at hr
      rw [hr]
      norm_num
    · simp +decide only [totalScore, allEmotions, applyResults, updStep, List.foldl_cons,
        List.foldl_nil, tl_fear, List.map_cons, List.map_nil, List.sum_cons, List.sum_nil]
      norm_num

/-- Claim C1 counterexample: on the empty raw classification the vector is all-zero,
but the aggregation reports `dominant_emotion = "Happy"` (the head of the stable-sorted
all-tied list), not `"Neutral"` as the claim states. -/
theorem zero_mass_counterexample :
    (analyzeText []).dominant_emotion = "Happy" ∧
    ¬(analyzeText []).dominant_emotion = "Neutral" := by
  have h : (analyzeText []).dominant_emotion = "Happy" := by
    norm_num [analyzeText, aggregate, normalize, normalizeVector, applyResults, buildEmotions,
      sortEmotions, entryOf, totalScore, allEmotions, categoryName, getIntensity, scoreDescRel,
      List.insertionSort, List.orderedInsert]
  exact ⟨h, by rw [h]; decide⟩

/-- Claim C1 as amended: an empty or all-unmapped raw classification yields the
all-zero vector, and the aggregation reports `dominant_emotion = "Happy"` (the first
canonical category: all six zero-score entries tie and the stable sort preserves the
canonical order, so the `"Neutral"` fallback for an empty entry list never fires),
`confidence = 0`, and `mixed_emotions = []`. -/
theorem zero_mass_aggregation (lookup : String → Option EmotionCategory)
    (results : RawClassification)
    (h : ∀ r ∈ results, lookup (lowerString r.1) = none) :
    (∀ c, normalize lookup results c = 0) ∧
    (aggregate (normalize lookup results)).dominant_emotion = "Happy" ∧
    (aggregate (normalize lookup results)).confidence = 0 ∧
    (aggregate (normalize lookup results)).mixed_emotions = [] := by
  have hz : normalize lookup results = fun _ => 0 := by
    rw [normalize, applyResults_unmapped lookup results h,
      normalizeVector_nonpos (by norm_num [totalScore, allEmotions])]
  rw [hz]
  refine ⟨fun c => rfl, ?_, ?_, ?_⟩ <;>
    norm_num [aggregate, buildEmotions, sortEmotions, entryOf, allEmotions, categoryName,
      getIntensity, scoreDescRel, List.insertionSort, List.orderedInsert]

/-- Witness for the amended C1 at a concrete all-unmapped input. -/
theorem zero_mass_aggregation_witness :
    (aggregate (normalize textLookup [(("fear" : String), (1 : ℚ))])).dominant_emotion =
      "Happy" ∧
    (aggregate (normalize textLookup [(("fear" : String), (1 : ℚ))])).confidence = 0 ∧
    (aggregate (normalize textLookup [(("fear" : String), (1 : ℚ))])).mixed_emotions = [] :=
  (zero_mass_aggregation textLookup [(("fear" : String), (1 : ℚ))]
    (fun r hr => by
      simp only [List.mem_singleton] at hr
      rw [hr]
      exact tl_fear)).2

/-- Claim C4 (confirmed): the mixed-emotions list contains exactly the category names
whose score strictly exceeds 0.15 (so a score of exactly 0.15 is excluded and any
larger score is included), and it is a sublist of the names of the descending-sorted
entries, hence in the sorted order. -/
theorem mixed_emotion_threshold (v : EmotionVector) :
    (∀ c, categoryName c ∈ (aggregate v).mixed_emotions ↔ (3 : ℚ) / 20 < v c) ∧
    List.Sublist (aggregate v).mixed_emotions
      ((aggregate v).emotions.map EmotionResult.name) := by
  constructor
  · intro c
    rw [aggregate_mixed]
    constructor
    · intro h
      rcases List.mem_map.1 h with ⟨e, he, hname⟩
      rcases List.mem_filter.1 he with ⟨hmem, hpred⟩
      have hmem' : e ∈ buildEmotions v := (sortEmotions_perm _).mem_iff.1 hmem
      rcases mem_buildEmotions.1 hmem' with ⟨c', rfl⟩
      have hc : c' = c := categoryName_inj hname
      subst hc
      exact of_decide_eq_true hpred
    · intro h
      refine List.mem_map.2 ⟨entryOf v c, List.mem_filter.2 ⟨?_, decide_eq_true h⟩, rfl⟩
      exact (sortEmotions_perm _).mem_iff.2 (mem_buildEmotions.2 ⟨c, rfl⟩)
  · rw [aggregate_mixed, aggregate_emotions]
    exact List.Sublist.map EmotionResult.name (List.filter_sublist _)

/-- Claim C5 (confirmed): the aggregated `emotions` list is sorted descending by
score, contains exactly the six per-category entries, and ties keep the canonical
enumeration order — whenever `c₁` precedes `c₂` canonically and their scores are
equal, `c₁`'s entry precedes `c₂`'s in the output; the embedding is a pure function,
so repeated runs on identical input are identical. -/
theorem sort_deterministic (v : EmotionVector) :
    ((aggregate v).emotions).Pairwise scoreDescRel ∧
    List.Perm (aggregate v).emotions (buildEmotions v) ∧
    (∀ c₁ c₂ : EmotionCategory, List.Sublist [c₁, c₂] allEmotions → v c₁ = v c₂ →
      List.Sublist [entryOf v c₁, entryOf v c₂] (aggregate v).emotions) := by
  refine ⟨?_, ?_, ?_⟩
  · rw [aggregate_emotions]
    exact sortEmotions_sorted _
  · rw [aggregate_emotions]
    exact sortEmotions_perm _
  · intro c₁ c₂ hsub heq
    rw [aggregate_emotions]
    refine List.pair_sublist_insertionSort (le_of_eq heq.symm) ?_
    exact List.Sublist.map (entryOf v) hsub

/-- Witness for C5 at the spec's tie example: `Happy` and `Angry` carry equal scores
and `Happy`'s entry comes first in the sorted output. -/
theorem sort_deterministic_witness :
    List.Sublist [entryOf tiedHappyAngry .Happy, entryOf tiedHappyAngry .Angry]
      (aggregate tiedHappyAngry).emotions :=
  (sort_deterministic tiedHappyAngry).2.2 .Happy .Angry (by decide) (by decide)

/-- Claim C10 (confirmed): when the mapped total mass is positive, the normalized
vector sums to 1, so the top sorted score is at least 1/6 > 0.15; hence
`mixed_emotions` is non-empty and its first element is `dominant_emotion`. -/
theorem dominant_passes_threshold (lookup : String → Option EmotionCategory)
    (results : RawClassification)
    (h : 0 < totalScore (applyResults lookup results)) :
    (aggregate (normalize lookup results)).mixed_emotions ≠ [] ∧
    (aggregate (normalize lookup results)).mixed_emotions.head? =
      some (aggregate (normalize lookup results)).dominant_emotion := by
  have htot : totalScore (normalize lookup results) = 1 := totalScore_normalizeVector h
  have hlen := length_sortEmotions_buildEmotions (normalize lookup results)
  cases hsc : sortEmotions (buildEmotions (normalize lookup results)) with
  | nil => rw [hsc] at hlen; simp at hlen
  | cons e0 rest =>
    have hsorted := sortEmotions_sorted (buildEmotions (normalize lookup results))
    rw [hsc] at hsorted
    have hrest : ∀ e ∈ rest, e.score ≤ e0.score :=
      fun e he => (List.pairwise_cons.1 hsorted).1 e he
    have hsum : e0.score + (rest.map EmotionResult.score).sum = 1 := by
      have hperm := (sortEmotions_perm (buildEmotions (normalize lookup results))).map
        EmotionResult.score
      have hsums := hperm.sum_eq
      rw [hsc, sum_scores_buildEmotions, htot] at hsums
      simpa using hsums
    have hlenrest : rest.length = 5 := by
      rw [hsc] at hlen
      simpa using hlen
    have hbound : (rest.map EmotionResult.score).sum ≤ 5 * e0.score := by
      have hb := List.sum_le_card_nsmul (rest.map EmotionResult.score) e0.score
        (fun x hx => by
          rcases List.mem_map.1 hx with ⟨e, he, rfl⟩
          exact hrest e he)
      rw [List.length_map, hlenrest] at hb
      simpa [nsmul_eq_mul] using hb
    have he0 : (3 : ℚ) / 20 < e0.score := by linarith
    constructor
    · rw [aggregate_mixed, hsc]
      simp [List.filter_cons, he0]
    · rw [aggregate_mixed, aggregate_dominant, hsc]
      simp [List.filter_cons, he0]

/-- Witness for C10 at the spec's end-to-end example input `[joy ↦ 4, neutral ↦ 1]`. -/
theorem dominant_passes_threshold_witness :
    (aggregate (normalize textLookup
      [(("joy" : String), (4 : ℚ)), ("neutral", 1)])).mixed_emotions ≠ [] ∧
    (aggregate (normalize textLookup
      [(("joy" : String), (4 : ℚ)), ("neutral", 1)])).mixed_emotions.head? =
      some (aggregate (normalize textLookup
        [(("joy" : String), (4 : ℚ)), ("neutral", 1)])).dominant_emotion :=
  dominant_passes_threshold textLookup _ (by
    simp +decide only [totalScore, allEmotions, applyResults, updStep, List.foldl_cons,
      List.foldl_nil, tl_joy, tl_neutral, Function.update, List.map_cons, List.map_nil,
      List.sum_cons, List.sum_nil]
    norm_num)

/-- Claim C6 counterexample: `unitHappy` is normalized (total mass 1), yet re-feeding
it with the category names as labels loses all non-`Neutral` mass under the text
lookup (whose keys are joy/sadness/anger/surprise/disgust/neutral), so `Happy`'s
score drops from 1 to 0; likewise the image lookup loses `Surprised` (its key is
"surprise", not "surprised"). -/
theorem idempotence_counterexample :
    totalScore unitHappy = 1 ∧
    unitHappy .Happy = 1 ∧
    normalize textLookup (allEmotions.map fun c => (categoryName c, unitHappy c)) .Happy = 0 ∧
    normalize textLookup (allEmotions.map fun c => (categoryName c, unitHappy c)) .Happy ≠
      unitHappy .Happy ∧
    totalScore unitSurprised = 1 ∧
    unitSurprised .Surprised = 1 ∧
    normalize imageLookup
      (allEmotions.map fun c => (categoryName c, unitSurprised c)) .Surprised = 0 ∧
    normalize imageLookup
      (allEmotions.map fun c => (categoryName c, unitSurprised c)) .Surprised ≠
      unitSurprised .Surprised := by
  have ht : normalize textLookup
      (allEmotions.map fun c => (categoryName c, unitHappy c)) .Happy = 0 := by
    have happ : applyResults textLookup
        (allEmotions.map fun c => (categoryName c, unitHappy c)) = fun _ => 0 := by
      funext c
      cases c <;> decide
    rw [normalize, happ, normalizeVector_nonpos (by norm_num [totalScore, allEmotions])]
  have hi : normalize imageLookup
      (allEmotions.map fun c => (categoryName c, unitSurprised c)) .Surprised = 0 := by
    have happ : applyResults imageLookup
        (allEmotions.map fun c => (categoryName c, unitSurprised c)) = fun _ => 0 := by
      funext c
      cases c <;> decide
    rw [normalize, happ, normalizeVector_nonpos (by norm_num [totalScore, allEmotions])]
  refine ⟨by rw [totalScore_eq]; simp +decide [unitHappy], by decide, ht,
    by rw [ht]; decide, by rw [totalScore_eq]; simp +decide [unitSurprised], by decide, hi,
    by rw [hi]; decide⟩

/-- Claim C6 as amended: re-normalization is idempotent when the already-normalized
vector is presented with the backend's own raw label for each category (text:
joy/sadness/anger/surprise/disgust/neutral; image:
happy/sad/angry/surprise/disgust/neutral); with the category display names as labels
the lookups drop most categories, so idempotence fails (see the counterexample). -/
theorem idempotent_on_raw_labels (v : EmotionVector)
    (h : totalScore v = 1 ∨ ∀ c, v c = 0) :
    (∀ c, normalize textLookup (allEmotions.map fun c' => (textRawLabel c', v c')) c = v c) ∧
    (∀ c, normalize imageLookup
      (allEmotions.map fun c' => (imageRawLabel c', v c')) c = v c) := by
  have key : ∀ (lookup : String → Option EmotionCategory) (lbl : EmotionCategory → String),
      (∀ c, lookup (lowerString (lbl c)) = some c) →
      ∀ c, normalize lookup (allEmotions.map fun c' => (lbl c', v c')) c = v c := by
    intro lookup lbl hlbl c
    have happ : applyResults lookup (allEmotions.map fun c' => (lbl c', v c')) = v := by
      funext c'
      simp only [allEmotions, List.map_cons, List.map_nil, applyResults, List.foldl_cons,
        List.foldl_nil, updStep, hlbl]
      cases c' <;> simp [Function.update]
    rw [normalize, happ]
    rcases h with h1 | h0
    · rw [normalizeVector_pos (by rw [h1]; norm_num)]
      show v c / totalScore v = v c
      rw [h1, div_one]
    · rw [normalizeVector_nonpos (by simp [totalScore_eq, h0])]
  exact ⟨key textLookup textRawLabel tl_textRawLabel,
    key imageLookup imageRawLabel il_imageRawLabel⟩

/-- Witness for the amended C6 at the normalized vector `unitHappy`. -/
theorem idempotent_on_raw_labels_witness :
    normalize textLookup
      (allEmotions.map fun c' => (textRawLabel c', unitHappy c')) .Happy = unitHappy .Happy :=
  (idempotent_on_raw_labels unitHappy
    (Or.inl (by rw [totalScore_eq]; simp +decide [unitHappy]))).1 .Happy

end EmotiSecure
